import Mathlib

/-!
Verification of the BlackForge AI data-poisoning defense platform against its
natural-language specification.

The repository ships the React frontend (ThreatBadge, ClusterVisualization,
PurificationResults, ...) whose components are embedded here directly from the
JavaScript source, with JavaScript numbers modelled as rationals.  The
detection and purification engine described by the specification (spectral
detector, activation clustering, influence functions, ensemble scorer,
purifier) is not part of the shipped sources; those components are modelled
from the specification text, each such definition carrying a doc comment that
begins with `Modelled from the spec:`.
-/

/- ── ThreatBadge component (frontend/src/components/ThreatBadge.js) ── -/

/-- Embeds `getBadgeStyle` of the ThreatBadge component: style class chosen
from the numeric confidence. -/
def getBadgeStyle (confidence : ℚ) : String :=
  if confidence < 30 then "badge-safe"
  else if confidence < 70 then "badge-warning"
  else "badge-danger"

/-- Embeds `getLabel` of the ThreatBadge component: label text chosen from the
numeric confidence. -/
def getLabel (confidence : ℚ) : String :=
  if confidence < 30 then "✓ Safe"
  else if confidence < 70 then "⚠ Suspicious"
  else "✗ Poisoned"

/- ── ClusterVisualization component (frontend/src/components/ClusterVisualization.js) ── -/

/-- Embeds the `bounds` object of the visualization payload. -/
structure Bounds where
  x_min : ℚ
  x_max : ℚ
  y_min : ℚ
  y_max : ℚ

/-- Embeds one entry of the `points` array of the visualization payload. -/
structure VizPoint where
  x : ℚ
  y : ℚ
  suspicious : Bool

/-- Embeds the constant `padding = 40` of ClusterVisualization. -/
def vizPadding : ℚ := 40

/-- Embeds the constant `width = 600` of ClusterVisualization. -/
def vizWidth : ℚ := 600

/-- Embeds the constant `height = 500` of ClusterVisualization. -/
def vizHeight : ℚ := 500

/-- Embeds `scaleX = (width - 2 * padding) / (bounds.x_max - bounds.x_min + 1)`. -/
def scaleX (b : Bounds) : ℚ :=
  (vizWidth - 2 * vizPadding) / (b.x_max - b.x_min + 1)

/-- Embeds `scaleY = (height - 2 * padding) / (bounds.y_max - bounds.y_min + 1)`. -/
def scaleY (b : Bounds) : ℚ :=
  (vizHeight - 2 * vizPadding) / (b.y_max - b.y_min + 1)

/-- Embeds the circle center `cx = padding + (point.x - bounds.x_min) * scaleX`. -/
def cxOf (b : Bounds) (p : VizPoint) : ℚ :=
  vizPadding + (p.x - b.x_min) * scaleX b

/-- Embeds the circle center
`cy = height - padding - (point.y - bounds.y_min) * scaleY`. -/
def cyOf (b : Bounds) (p : VizPoint) : ℚ :=
  vizHeight - vizPadding - (p.y - b.y_min) * scaleY b

/- ── PurificationResults composition panel (frontend/src/pages/PurificationResults.js) ── -/

/-- Embeds the Clean Samples percentage
`Math.max(0, Math.min(100, 100 - (data.poisoned_samples_removed / 10)))`. -/
def cleanPct (removed : ℚ) : ℚ :=
  max 0 (min 100 (100 - removed / 10))

/-- Embeds the Removed percentage
`Math.max(0, Math.min(100, data.poisoned_samples_removed / 10))`. -/
def removedPct (removed : ℚ) : ℚ :=
  max 0 (min 100 (removed / 10))

/- ── Purifier (modelled from the spec; the engine is absent from the shipped sources) ── -/

/-- Modelled from the spec: a freshly uploaded Dataset is an ordered sequence
of Samples, each identified by a stable 0-based index that serves as the join
key for every detector and for the purifier.  A Dataset is represented as the
list of its (stable index, sample) rows. -/
def freshRows {α : Type} (samples : List α) : List (ℕ × α) :=
  samples.enum

/-- Modelled from the spec: the Purifier removes from the Dataset the Samples
whose stable index lies in the AnalysisResult's suspicious-indices set,
preserving the order of the remainder, and produces a new Dataset (the
original is never mutated in place; indices are stable across purification). -/
def purifyRows {α : Type} (rows : List (ℕ × α)) (susp : List ℕ) : List (ℕ × α) :=
  rows.filter (fun p => decide (p.1 ∉ susp))

/-- Modelled from the spec: `poisoned_samples_removed` of a purification run is
the number of rows of the input Dataset whose stable index lies in the
suspicious-indices set. -/
def removedCount {α : Type} (rows : List (ℕ × α)) (susp : List ℕ) : ℕ :=
  (rows.filter (fun p => decide (p.1 ∈ susp))).length

/- ── Spectral Signature Detector (modelled from the spec) ── -/

/-- Modelled from the spec: arithmetic mean of a list of rationals (used for
the per-class score mean of the spectral detector). -/
def listMean (xs : List ℚ) : ℚ :=
  xs.sum / xs.length

/-- Modelled from the spec: the spectral scores of the samples belonging to
class `c`, read off the per-sample score and label lists. -/
def classScores (scores : List ℚ) (labels : List ℕ) (c : ℕ) : List ℚ :=
  ((scores.zip labels).filter (fun p => decide (p.2 = c))).map Prod.fst

/-- Modelled from the spec: the Spectral Signature Detector flags the samples
whose spectral score exceeds `mean + k·stddev` within their class.  The SVD
projection magnitudes are taken as the input score vector (one rational per
sample); the per-class standard deviation is a rational-valued parameter `sd`
(a square root of the class variance is irrational in general), whose
nonnegativity — the defining property of a standard deviation — is what the
theorems assume. -/
def spectralSuspicious (scores : List ℚ) (labels : List ℕ) (sd : ℕ → ℚ)
    (k : ℚ) : List ℕ :=
  (List.range scores.length).filter (fun i =>
    decide (listMean (classScores scores labels (labels.getD i 0)) +
      k * sd (labels.getD i 0) < scores.getD i 0))

/- ── Ensemble Threat Scorer (modelled from the spec) ── -/

/-- Modelled from the spec: the ensemble fusion rule — for each sample index
below `n` the fused suspicion score is the maximum over the detection methods'
normalized per-sample scores (a fold of `max` over the method scores at that
index, starting from 0, the bottom of the [0,1] score range). -/
def fuseMethods (methods : List (List ℚ)) (n : ℕ) : List ℚ :=
  (List.range n).map (fun i => (methods.map (fun m => m.getD i 0)).foldr max 0)

/-- Modelled from the spec: `threat_grade` is the fixed-boundary mapping of
`threat_score` onto A–F (A: <20, B: <40, C: <60, D: <75, E: <90, F: ≥90). -/
def threatGrade (score : ℚ) : String :=
  if score < 20 then "A"
  else if score < 40 then "B"
  else if score < 60 then "C"
  else if score < 75 then "D"
  else if score < 90 then "E"
  else "F"

/- ── Activation Clustering and Influence detectors (modelled from the spec) ── -/

/-- Modelled from the spec: the detector configuration — the spectral `k`
multiplier, the minority-cluster fraction (as numerator/denominator), the
density-clustering radius (squared) and minimum neighbour count, the influence
tail multiplier, and the iteration cap of the LiSSA approximation. -/
structure Config where
  spectralK : ℚ
  minorityNum : ℕ
  minorityDen : ℕ
  epsSq : ℚ
  minPts : ℕ
  tailK : ℚ
  lissaIters : ℕ

/-- Modelled from the spec: a linear congruential step standing for the seeded
pseudo-randomness of the clustering initialization and of the stochastic
influence approximation; a pure function of the seed, so every seeded
component is deterministic. -/
def lcgNext (s : ℕ) : ℕ :=
  (1103515245 * s + 12345) % 2147483648

/-- Modelled from the spec: squared Euclidean distance between two embedding
vectors. -/
def distSq (u v : List ℚ) : ℚ :=
  ((u.zip v).map (fun p => (p.1 - p.2) ^ 2)).sum

/-- Modelled from the spec: the first (lowest) index attaining the minimum of
a list of rationals; every tie in the clustering is resolved through this
function, so ties are broken by the lowest index. -/
def argminFirst : List ℚ → ℕ
  | [] => 0
  | [_] => 0
  | x :: y :: ys =>
    if x ≤ (y :: ys).getD (argminFirst (y :: ys)) 0 then 0
    else argminFirst (y :: ys) + 1

/-- Modelled from the spec: the partition-based (k = 2) clustering assignment —
two initial centroids are chosen from the seed, and each sample goes to the
nearest centroid, ties resolved by `argminFirst`. -/
def kmeansAssign (embs : List (List ℚ)) (seed : ℕ) : List ℕ :=
  let c0 := embs.getD (lcgNext seed % max embs.length 1) []
  let c1 := embs.getD (lcgNext (lcgNext seed) % max embs.length 1) []
  embs.map (fun e => argminFirst [distSq e c0, distSq e c1])

/-- Modelled from the spec: the partition-based detector flags the samples
sitting in a cluster whose size is below the minority fraction of the dataset
size. -/
def kmeansMinority (embs : List (List ℚ)) (cfg : Config) (seed : ℕ) : List ℕ :=
  let asg := kmeansAssign embs seed
  (List.range embs.length).filter (fun i =>
    decide ((asg.filter (fun a => a == asg.getD i 0)).length * cfg.minorityDen <
      cfg.minorityNum * embs.length))

/-- Modelled from the spec: the density-based detector flags noise points —
samples with fewer than `minPts` neighbours within the squared radius
`epsSq`. -/
def densityNoise (embs : List (List ℚ)) (cfg : Config) : List ℕ :=
  (List.range embs.length).filter (fun i =>
    decide (((List.range embs.length).filter (fun j =>
      decide (j ≠ i) &&
      decide (distSq (embs.getD i []) (embs.getD j []) ≤ cfg.epsSq))).length <
      cfg.minPts))

/-- Modelled from the spec: the Activation Clustering Detector flags a sample
if either the partition-based or the density-based algorithm flags it (a
disjunction of the two methods). -/
def clusterSuspicious (embs : List (List ℚ)) (cfg : Config) (seed : ℕ) :
    List ℕ :=
  (kmeansMinority embs cfg seed ++ densityNoise embs cfg).dedup

/-- Modelled from the spec: the LiSSA-style iterative stochastic approximation
of the inverse-Hessian-vector product — a bounded-iteration recursion over
seeded mini-batch picks, a pure function of the gradients, seed, and iteration
cap. -/
def lissaIHVP (grads : List ℚ) : ℕ → ℕ → ℚ → ℚ
  | _, 0, v => v
  | seed, n + 1, v =>
    lissaIHVP grads (lcgNext seed) n
      (v + grads.getD (lcgNext seed % max grads.length 1) 0 - v / 10)

/-- Modelled from the spec: the per-sample influence score — the dot product
of the approximate inverse-Hessian-vector product with the sample's own loss
gradient. -/
def influenceScores (grads : List ℚ) (cfg : Config) (seed : ℕ) : List ℚ :=
  grads.map (fun g => g * lissaIHVP grads seed cfg.lissaIters 0)

/-- Modelled from the spec: absolute value of a rational. -/
def absQ (x : ℚ) : ℚ :=
  if x < 0 then -x else x

/-- Modelled from the spec: insertion of a rational into a sorted list,
auxiliary to the median. -/
def insertSorted (x : ℚ) : List ℚ → List ℚ
  | [] => [x]
  | y :: ys => if x ≤ y then x :: y :: ys else y :: insertSorted x ys

/-- Modelled from the spec: insertion sort of a list of rationals. -/
def sortQ (xs : List ℚ) : List ℚ :=
  xs.foldr insertSorted []

/-- Modelled from the spec: the median of a list of rationals (middle element
of the sorted list), the robust location estimate of the influence scores. -/
def medianQ (xs : List ℚ) : ℚ :=
  (sortQ xs).getD (xs.length / 2) 0

/-- Modelled from the spec: the median absolute deviation, the robust scale
estimate used for the influence tail. -/
def madQ (xs : List ℚ) : ℚ :=
  medianQ (xs.map (fun s => absQ (s - medianQ xs)))

/-- Modelled from the spec: the Influence Function Detector flags the samples
whose influence score lies in the extreme tail by robust z-score: its absolute
deviation from the median exceeds the tail multiplier times the median
absolute deviation. -/
def influenceSuspicious (grads : List ℚ) (cfg : Config) (seed : ℕ) : List ℕ :=
  (List.range (influenceScores grads cfg seed).length).filter (fun i =>
    decide (cfg.tailK * madQ (influenceScores grads cfg seed) <
      absQ ((influenceScores grads cfg seed).getD i 0 -
        medianQ (influenceScores grads cfg seed))))

/-- Modelled from the spec: one full analysis run — the three seeded detectors
over the shared inputs, their suspicious-indices sets unioned into the
AnalysisResult's `suspicious_indices`. -/
def analysisSusp (embs : List (List ℚ)) (labels : List ℕ)
    (specScores grads : List ℚ) (sd : ℕ → ℚ) (cfg : Config) (seed : ℕ) :
    List ℕ :=
  (spectralSuspicious specScores labels sd cfg.spectralK ++
    clusterSuspicious embs cfg seed ++
    influenceSuspicious grads cfg seed).dedup

/- ── Helper lemmas ── -/

/-- Splitting a list by a Boolean predicate partitions its length. -/
lemma length_filter_not_add_length_filter {α : Type} (l : List α) (p : α → Bool) :
    (List.filter (fun a => !(p a)) l).length + (List.filter p l).length = l.length := by
  induction l with
  | nil => rfl
  | cons x xs ih =>
    cases hx : p x <;> simp [List.filter_cons, hx] <;> omega

/-- `argminFirst` returns an index holding the minimum of the list, and every
strictly earlier index holds a strictly larger value: ties are broken by the
lowest index. -/
lemma argminFirst_spec (ds : List ℚ) :
    ∀ i : ℕ, i < ds.length →
      ds.getD (argminFirst ds) 0 ≤ ds.getD i 0 ∧
      (i < argminFirst ds → ds.getD (argminFirst ds) 0 < ds.getD i 0) := by
  induction ds with
  | nil =>
    intro i hi
    simp at hi
  | cons x xs ih =>
    cases xs with
    | nil =>
      intro i hi
      have h0 : i = 0 := by
        simp only [List.length_cons, List.length_nil] at hi
        omega
      subst h0
      simp [argminFirst]
    | cons y ys =>
      intro i hi
      by_cases hx : x ≤ (y :: ys).getD (argminFirst (y :: ys)) 0
      · have ha : argminFirst (x :: y :: ys) = 0 := if_pos hx
        rw [ha]
        cases i with
        | zero =>
          exact ⟨le_refl _, fun h => absurd h (by omega)⟩
        | succ j =>
          have hj : j < (y :: ys).length := by
            simp only [List.length_cons] at hi ⊢
            omega
          refine ⟨?_, fun h => absurd h (by omega)⟩
          rw [List.getD_cons_zero, List.getD_cons_succ]
          exact le_trans hx (ih j hj).1
      · have ha : argminFirst (x :: y :: ys) = argminFirst (y :: ys) + 1 :=
          if_neg hx
        rw [ha]
        cases i with
        | zero =>
          rw [List.getD_cons_succ, List.getD_cons_zero]
          exact ⟨le_of_lt (not_le.mp hx), fun _ => not_le.mp hx⟩
        | succ j =>
          have hj : j < (y :: ys).length := by
            simp only [List.length_cons] at hi ⊢
            omega
          rw [List.getD_cons_succ, List.getD_cons_succ]
          exact ⟨(ih j hj).1, fun h => (ih j hj).2 (by omega)⟩

/-- A product `t * (C / (d + 1))` with `0 ≤ t ≤ d` and `0 < C` is nonnegative
and strictly below `C`; this is the common shape of both coordinate scale
terms in ClusterVisualization. -/
lemma scale_term_bounds (t d C : ℚ) (h0 : 0 ≤ t) (h1 : t ≤ d) (hC : 0 < C) :
    0 ≤ t * (C / (d + 1)) ∧ t * (C / (d + 1)) < C := by
  have hd : 0 < d + 1 := by linarith
  constructor
  · exact mul_nonneg h0 (le_of_lt (div_pos hC hd))
  · have h2 : t * (C / (d + 1)) = t * C / (d + 1) := by ring
    rw [h2, div_lt_iff₀ hd]
    nlinarith

/- ── Theorems ── -/

/-- C8: the ThreatBadge label and style class agree and partition the
confidence range: Safe/badge-safe exactly below 30, Suspicious/badge-warning
exactly on [30, 70), Poisoned/badge-danger exactly at 70 and above; the
boundary values 30 and 70 land in the higher-severity bucket. -/
theorem threatBadge_partition (c : ℚ) :
    ((getLabel c = "✓ Safe" ∧ getBadgeStyle c = "badge-safe") ↔ c < 30) ∧
    ((getLabel c = "⚠ Suspicious" ∧ getBadgeStyle c = "badge-warning") ↔
      (30 ≤ c ∧ c < 70)) ∧
    ((getLabel c = "✗ Poisoned" ∧ getBadgeStyle c = "badge-danger") ↔ 70 ≤ c) := by
  unfold getLabel getBadgeStyle
  split_ifs with h1 h2
  · refine ⟨iff_of_true ⟨rfl, rfl⟩ h1, ?_, ?_⟩
    · exact iff_of_false (fun hc => absurd hc.1 (by decide))
        (fun hc => absurd h1 (not_lt.mpr hc.1))
    · exact iff_of_false (fun hc => absurd hc.1 (by decide))
        (fun hc => absurd h1 (not_lt.mpr (by linarith)))
  · refine ⟨?_, iff_of_true ⟨rfl, rfl⟩ ⟨not_lt.mp h1, h2⟩, ?_⟩
    · exact iff_of_false (fun hc => absurd hc.1 (by decide)) (fun hc => h1 hc)
    · exact iff_of_false (fun hc => absurd hc.1 (by decide))
        (fun hc => absurd h2 (not_lt.mpr hc))
  · refine ⟨?_, ?_, iff_of_true ⟨rfl, rfl⟩ (not_lt.mp h2)⟩
    · exact iff_of_false (fun hc => absurd hc.1 (by decide)) h1
    · exact iff_of_false (fun hc => absurd hc.1 (by decide)) (fun hc => h2 hc.2)

/-- C9: for bounds with `x_min ≤ x_max` and `y_min ≤ y_max` both scale
denominators are nonzero, and every point lying inside the bounds is rendered
with its circle center inside the padded 600×500 drawing area: the x-center in
[40, 560) and the y-center in (40, 460]. -/
theorem clusterVisualization_in_bounds (b : Bounds) (p : VizPoint)
    (hx : b.x_min ≤ b.x_max) (hy : b.y_min ≤ b.y_max)
    (hpx1 : b.x_min ≤ p.x) (hpx2 : p.x ≤ b.x_max)
    (hpy1 : b.y_min ≤ p.y) (hpy2 : p.y ≤ b.y_max) :
    (b.x_max - b.x_min + 1 ≠ 0 ∧ b.y_max - b.y_min + 1 ≠ 0) ∧
    (40 ≤ cxOf b p ∧ cxOf b p < 560) ∧
    (40 < cyOf b p ∧ cyOf b p ≤ 460) := by
  have hdx : (0:ℚ) < b.x_max - b.x_min + 1 := by linarith
  have hdy : (0:ℚ) < b.y_max - b.y_min + 1 := by linarith
  have hsx := scale_term_bounds (p.x - b.x_min) (b.x_max - b.x_min) 520
    (by linarith) (by linarith) (by norm_num)
  have hsy := scale_term_bounds (p.y - b.y_min) (b.y_max - b.y_min) 420
    (by linarith) (by linarith) (by norm_num)
  have hcx : cxOf b p = 40 + (p.x - b.x_min) * (520 / (b.x_max - b.x_min + 1)) := by
    unfold cxOf scaleX vizPadding vizWidth
    norm_num
  have hcy : cyOf b p = 460 - (p.y - b.y_min) * (420 / (b.y_max - b.y_min + 1)) := by
    unfold cyOf scaleY vizPadding vizHeight
    norm_num
  refine ⟨⟨ne_of_gt hdx, ne_of_gt hdy⟩, ⟨?_, ?_⟩, ⟨?_, ?_⟩⟩
  · rw [hcx]; linarith [hsx.1]
  · rw [hcx]; linarith [hsx.2]
  · rw [hcy]; linarith [hsy.2]
  · rw [hcy]; linarith [hsy.1]

/-- Witness for C9 at the concrete bounds [0,10]×[0,10] and the point (5,5). -/
theorem clusterVisualization_in_bounds_witness :
    ((Bounds.mk 0 10 0 10).x_max - (Bounds.mk 0 10 0 10).x_min + 1 ≠ 0 ∧
     (Bounds.mk 0 10 0 10).y_max - (Bounds.mk 0 10 0 10).y_min + 1 ≠ 0) ∧
    (40 ≤ cxOf (Bounds.mk 0 10 0 10) (VizPoint.mk 5 5 true) ∧
     cxOf (Bounds.mk 0 10 0 10) (VizPoint.mk 5 5 true) < 560) ∧
    (40 < cyOf (Bounds.mk 0 10 0 10) (VizPoint.mk 5 5 true) ∧
     cyOf (Bounds.mk 0 10 0 10) (VizPoint.mk 5 5 true) ≤ 460) :=
  clusterVisualization_in_bounds (Bounds.mk 0 10 0 10) (VizPoint.mk 5 5 true)
    (by norm_num) (by norm_num) (by norm_num) (by norm_num) (by norm_num)
    (by norm_num)

/-- C10: both composition percentages are clamped to [0, 100] for every input,
and whenever `0 ≤ poisoned_samples_removed ≤ 1000` they equal
`100 - removed/10` and `removed/10` respectively and sum to exactly 100. -/
theorem purification_composition_pcts (r : ℚ) :
    (0 ≤ cleanPct r ∧ cleanPct r ≤ 100 ∧
     0 ≤ removedPct r ∧ removedPct r ≤ 100) ∧
    (0 ≤ r → r ≤ 1000 →
      cleanPct r = 100 - r / 10 ∧ removedPct r = r / 10 ∧
      cleanPct r + removedPct r = 100) := by
  constructor
  · refine ⟨le_max_left 0 _, ?_, le_max_left 0 _, ?_⟩
    · exact max_le (by norm_num) (min_le_left _ _)
    · exact max_le (by norm_num) (min_le_left _ _)
  · intro h0 h1
    have hcl : cleanPct r = 100 - r / 10 := by
      unfold cleanPct
      rw [min_eq_right (by linarith), max_eq_right (by linarith)]
    have hrm : removedPct r = r / 10 := by
      unfold removedPct
      rw [min_eq_right (by linarith), max_eq_right (by linarith)]
    exact ⟨hcl, hrm, by rw [hcl, hrm]; ring⟩

/-- C2: for every purification run the purified Dataset's sample count plus
`poisoned_samples_removed` equals the original Dataset's sample count, and the
retained rows keep the relative order they had in the original Dataset (the
purified Dataset is a sublist of the original). -/
theorem purify_roundtrip {α : Type} (samples : List α) (susp : List ℕ) :
    (purifyRows (freshRows samples) susp).length +
      removedCount (freshRows samples) susp = samples.length ∧
    List.Sublist (purifyRows (freshRows samples) susp) (freshRows samples) := by
  constructor
  · unfold purifyRows removedCount freshRows
    have h := length_filter_not_add_length_filter samples.enum
      (fun p => decide (p.1 ∈ susp))
    simp only [decide_not]
    rw [h, List.enum_length]
  · exact List.filter_sublist _

/-- C3: purification is idempotent: re-running the purifier on its own output
with the same suspicious-indices set removes 0 further samples and returns the
purified Dataset unchanged. -/
theorem purify_idempotent {α : Type} (rows : List (ℕ × α)) (susp : List ℕ) :
    removedCount (purifyRows rows susp) susp = 0 ∧
    purifyRows (purifyRows rows susp) susp = purifyRows rows susp := by
  constructor
  · unfold removedCount purifyRows
    rw [List.filter_filter]
    have hfun : (fun p : ℕ × α => decide (p.1 ∈ susp) && decide (p.1 ∉ susp)) =
        fun _ => false := by
      funext p
      by_cases h : p.1 ∈ susp <;> simp [h]
    rw [hfun, List.filter_false]
    rfl
  · unfold purifyRows
    rw [List.filter_filter]
    simp only [Bool.and_self]

/-- C4: for every sample index below the dataset size, the ensemble's fused
suspicion score is exactly the maximum of the sample's three method-normalized
detector scores (a logical OR across detectors). -/
theorem ensemble_fusion_is_max (a b c : List ℚ) (n i : ℕ) (hi : i < n)
    (hc : 0 ≤ c.getD i 0) :
    (fuseMethods [a, b, c] n).getD i 0 =
      max (a.getD i 0) (max (b.getD i 0) (c.getD i 0)) := by
  unfold fuseMethods
  rw [List.getD_eq_getElem?_getD, List.getElem?_map, List.getElem?_range hi]
  have hc2 : (0:ℚ) ≤ (getElem? c i).getD 0 := by
    rw [← List.getD_eq_getElem?_getD]
    exact hc
  simp [max_eq_left hc2]

/-- Witness for C4 at three one-sample score vectors. -/
theorem ensemble_fusion_is_max_witness :
    (fuseMethods [[(1:ℚ)/2], [(1:ℚ)/4], [(3:ℚ)/4]] 1).getD 0 0 =
      max (([(1:ℚ)/2]).getD 0 0)
        (max (([(1:ℚ)/4]).getD 0 0) (([(3:ℚ)/4]).getD 0 0)) :=
  ensemble_fusion_is_max [(1:ℚ)/2] [(1:ℚ)/4] [(3:ℚ)/4] 1 0 (by norm_num)
    (by norm_num)

/-- C5: raising the spectral detector's `k` threshold never widens its output:
for `k1 ≤ k2` (class standard deviations being nonnegative) the samples
flagged at `k2` are a subset of those flagged at `k1`, so the flagged count at
`k2` is at most the count at `k1`. -/
theorem spectral_k_monotone (scores : List ℚ) (labels : List ℕ) (sd : ℕ → ℚ)
    (k1 k2 : ℚ) (hsd : ∀ c, 0 ≤ sd c) (hk : k1 ≤ k2) :
    spectralSuspicious scores labels sd k2 ⊆
      spectralSuspicious scores labels sd k1 ∧
    (spectralSuspicious scores labels sd k2).length ≤
      (spectralSuspicious scores labels sd k1).length := by
  unfold spectralSuspicious
  have hmono : ∀ i : ℕ,
      (decide (listMean (classScores scores labels (labels.getD i 0)) +
        k2 * sd (labels.getD i 0) < scores.getD i 0) = true) →
      (decide (listMean (classScores scores labels (labels.getD i 0)) +
        k1 * sd (labels.getD i 0) < scores.getD i 0) = true) := by
    intro i h
    rw [decide_eq_true_iff] at h ⊢
    have h1 : k1 * sd (labels.getD i 0) ≤ k2 * sd (labels.getD i 0) :=
      mul_le_mul_of_nonneg_right hk (hsd (labels.getD i 0))
    linarith
  have hsub := List.monotone_filter_right (List.range scores.length) hmono
  exact ⟨hsub.subset, hsub.length_le⟩

/-- Witness for C5 on a three-sample dataset with unit class deviation and
thresholds 1 ≤ 2. -/
theorem spectral_k_monotone_witness :
    (∀ c : ℕ, (0:ℚ) ≤ (fun _ : ℕ => (1:ℚ)) c) ∧ (1:ℚ) ≤ 2 ∧
    (spectralSuspicious [0, 0, 9] [0, 0, 0] (fun _ => 1) 2 ⊆
      spectralSuspicious [0, 0, 9] [0, 0, 0] (fun _ => 1) 1 ∧
     (spectralSuspicious [0, 0, 9] [0, 0, 0] (fun _ => 1) 2).length ≤
      (spectralSuspicious [0, 0, 9] [0, 0, 0] (fun _ => 1) 1).length) :=
  ⟨fun c => by norm_num, by norm_num,
    spectral_k_monotone [0, 0, 9] [0, 0, 0] (fun _ => 1) 1 2
      (fun c => by norm_num) (by norm_num)⟩

/-- C7: `threat_grade` partitions `threat_score` by the fixed boundaries:
A exactly below 20, B on [20, 40), C on [40, 60), D on [60, 75), E on
[75, 90), and F at 90 and above. -/
theorem threatGrade_boundaries (s : ℚ) :
    (threatGrade s = "A" ↔ s < 20) ∧
    (threatGrade s = "B" ↔ 20 ≤ s ∧ s < 40) ∧
    (threatGrade s = "C" ↔ 40 ≤ s ∧ s < 60) ∧
    (threatGrade s = "D" ↔ 60 ≤ s ∧ s < 75) ∧
    (threatGrade s = "E" ↔ 75 ≤ s ∧ s < 90) ∧
    (threatGrade s = "F" ↔ 90 ≤ s) := by
  unfold threatGrade
  split_ifs with h1 h2 h3 h4 h5 <;>
    refine ⟨?_, ?_, ?_, ?_, ?_, ?_⟩ <;>
    first
      | exact iff_of_true rfl (by constructor <;> linarith)
      | exact iff_of_true rfl (by linarith)
      | exact iff_of_false (by decide) (fun hc => by
          rcases hc with ⟨h6, h7⟩
          linarith)
      | exact iff_of_false (by decide) (fun hc => by linarith)

/-- Witness for C10 at `poisoned_samples_removed = 250`. -/
theorem purification_composition_pcts_witness :
    (0:ℚ) ≤ 250 ∧ (250:ℚ) ≤ 1000 ∧
    (cleanPct 250 = 100 - 250 / 10 ∧ removedPct 250 = 250 / 10 ∧
     cleanPct 250 + removedPct 250 = 100) :=
  ⟨by norm_num, by norm_num,
    (purification_composition_pcts 250).2 (by norm_num) (by norm_num)⟩

/-- C1: for every analyzed Dataset, every index returned by the spectral,
activation-clustering, or influence detector is at least 0 (it is a natural
number) and strictly below the sample count of the score/embedding/gradient
list the detector consumed. -/
theorem detector_indices_in_range (scores : List ℚ) (labels : List ℕ)
    (sd : ℕ → ℚ) (k : ℚ) (embs : List (List ℚ)) (cfg : Config)
    (seed : ℕ) (grads : List ℚ) :
    (∀ i ∈ spectralSuspicious scores labels sd k, i < scores.length) ∧
    (∀ i ∈ clusterSuspicious embs cfg seed, i < embs.length) ∧
    (∀ i ∈ influenceSuspicious grads cfg seed, i < grads.length) := by
  refine ⟨?_, ?_, ?_⟩
  · intro i hi
    unfold spectralSuspicious at hi
    exact List.mem_range.mp (List.mem_filter.mp hi).1
  · intro i hi
    unfold clusterSuspicious at hi
    rw [List.mem_dedup, List.mem_append] at hi
    rcases hi with h | h
    · unfold kmeansMinority at h
      exact List.mem_range.mp (List.mem_filter.mp h).1
    · unfold densityNoise at h
      exact List.mem_range.mp (List.mem_filter.mp h).1
  · intro i hi
    unfold influenceSuspicious at hi
    have h2 := List.mem_range.mp (List.mem_filter.mp hi).1
    simpa [influenceScores] using h2

/-- Witness for C1: on a concrete three-sample dataset the spectral detector
flags index 2, which is below the sample count 3. -/
theorem detector_indices_in_range_witness :
    2 ∈ spectralSuspicious [0, 0, 9] [0, 0, 0] (fun _ => 1) 1 ∧
    2 < ([0, 0, 9] : List ℚ).length := by
  have hmem : 2 ∈ spectralSuspicious [0, 0, 9] [0, 0, 0] (fun _ => 1) 1 := by
    unfold spectralSuspicious
    have hr : List.range ([(0:ℚ), 0, 9] : List ℚ).length = [0, 1, 2] := by
      decide
    rw [hr]
    refine List.mem_filter.mpr ⟨by decide, ?_⟩
    rw [decide_eq_true_iff]
    have hcs : classScores [0, 0, 9] [0, 0, 0] (([0, 0, 0] : List ℕ).getD 2 0) =
        [0, 0, 9] := by decide
    rw [hcs]
    norm_num [listMean]
  exact ⟨hmem,
    (detector_indices_in_range [0, 0, 9] [0, 0, 0] (fun _ => 1) 1
      [] (Config.mk 2 1 10 1 1 2 5) 0 []).1 2 hmem⟩

/-- C6: analysis is deterministic — two runs over identical input data with
identical configuration and identical seed produce identical
`suspicious_indices` sets, and every clustering tie is resolved by
`argminFirst`, which picks the lowest index attaining the minimum. -/
theorem analysis_deterministic
    (e1 e2 : List (List ℚ)) (l1 l2 : List ℕ) (s1 s2 g1 g2 : List ℚ)
    (f1 f2 : ℕ → ℚ) (c1 c2 : Config) (r1 r2 : ℕ)
    (he : e1 = e2) (hl : l1 = l2) (hs : s1 = s2) (hg : g1 = g2)
    (hf : f1 = f2) (hc : c1 = c2) (hr : r1 = r2) :
    analysisSusp e1 l1 s1 g1 f1 c1 r1 = analysisSusp e2 l2 s2 g2 f2 c2 r2 ∧
    (∀ ds : List ℚ, ∀ i : ℕ, i < ds.length →
      ds.getD (argminFirst ds) 0 ≤ ds.getD i 0 ∧
      (i < argminFirst ds → ds.getD (argminFirst ds) 0 < ds.getD i 0)) := by
  subst he
  subst hl
  subst hs
  subst hg
  subst hf
  subst hc
  subst hr
  exact ⟨rfl, fun ds => argminFirst_spec ds⟩

/-- Witness for C6 at a concrete dataset, configuration, and seed. -/
theorem analysis_deterministic_witness :
    analysisSusp [[0], [0], [5]] [0, 0, 0] [0, 0, 9] [1, 1, 8]
        (fun _ => 1) (Config.mk 2 1 10 1 1 2 5) 7 =
      analysisSusp [[0], [0], [5]] [0, 0, 0] [0, 0, 9] [1, 1, 8]
        (fun _ => 1) (Config.mk 2 1 10 1 1 2 5) 7 :=
  (analysis_deterministic [[0], [0], [5]] [[0], [0], [5]] [0, 0, 0] [0, 0, 0]
    [0, 0, 9] [0, 0, 9] [1, 1, 8] [1, 1, 8] (fun _ => 1) (fun _ => 1)
    (Config.mk 2 1 10 1 1 2 5) (Config.mk 2 1 10 1 1 2 5) 7 7
    rfl rfl rfl rfl rfl rfl rfl).1
